import Mathlib

/-!
Verification development for the leecfdi repository: a pipeline that reads
Mexican CFDI invoice XML files (versions 3.3/4.0) from a directory tree and
produces one tabular report.  The two scripts `leexmlpy.py` and
`leexmlpyN.py` are near-duplicates of a single core, embedded here once.

Numbers are modelled as exact rationals (the control flow of the scripts
never depends on binary floating-point rounding), Python strings as `String`,
XML documents as a finite tree of elements, and the filesystem as a finite
tree of named files and directories.
-/

namespace Leecfdi

attribute [local semireducible] Rat.add

/-- A cell value of an invoice record: the Python code stores either a string
or a number under each key of the `comp` dict. -/
inductive Value where
  | s (v : String)
  | q (v : ℚ)
deriving DecidableEq, Repr

/-- Numeric value of a decimal digit character. -/
def digitVal (c : Char) : Nat := c.toNat - 48

/-- Value of a big-endian list of decimal digit characters. -/
def digitsVal (l : List Char) : Nat := l.foldl (fun acc c => 10 * acc + digitVal c) 0

/-- Models CPython `float()` on plain numeric literals, as the spec assumes
(`[sign] (digits [. digits] | digits. | .digits) [(e|E) [sign] digits]`);
the exotic inputs `float` also accepts (surrounding whitespace, underscores,
`inf`, `nan`) are outside the spec and never reached by the claims.  The
result is the exact rational value of the literal. -/
def pyFloat? (s : String) : Option ℚ :=
  let (sgn, l1) : Int × List Char :=
    match s.data with
    | '+' :: t => (1, t)
    | '-' :: t => (-1, t)
    | t => (1, t)
  let intPart := l1.takeWhile Char.isDigit
  let r1 := l1.dropWhile Char.isDigit
  let (fracPart, r2) : List Char × List Char :=
    match r1 with
    | '.' :: t => (t.takeWhile Char.isDigit, t.dropWhile Char.isDigit)
    | t => ([], t)
  if intPart.isEmpty ∧ fracPart.isEmpty then none
  else
    let mkVal (e : Int) : ℚ :=
      mkRat (sgn * (digitsVal (intPart ++ fracPart) : Int) * (10 : Int).pow e.toNat)
            (Nat.pow 10 (fracPart.length + (-e).toNat))
    match r2 with
    | [] => some (mkVal 0)
    | e :: t =>
      if e = 'e' ∨ e = 'E' then
        let (esgn, t1) : Int × List Char :=
          match t with
          | '+' :: t2 => (1, t2)
          | '-' :: t2 => (-1, t2)
          | t2 => (1, t2)
        let expDigits := t1.takeWhile Char.isDigit
        let r3 := t1.dropWhile Char.isDigit
        if expDigits.isEmpty ∨ ¬ r3.isEmpty then none
        else some (mkVal (esgn * (digitsVal expDigits : Int)))
      else none

/-- Embeds `to_float` of both scripts: default when the value is absent
(`None`) or the empty string, the parsed number when `float()` succeeds, and
the default again when `float()` raises (the `except` arm). -/
def to_float (val : Option String) (default : ℚ) : ℚ :=
  match val with
  | none => default
  | some v =>
    if v = "" then default
    else
      match pyFloat? v with
      | some q => q
      | none => default

/-- A parsed `datetime` value as produced by `datetime.fromisoformat`. -/
structure PyDateTime where
  year : Nat
  month : Nat
  day : Nat
  hour : Nat
  minute : Nat
  second : Nat
  microsecond : Nat
  tzOffsetSeconds : Option Int
deriving DecidableEq, Repr

/-- Reads exactly two decimal digit characters. -/
def parse2 : List Char → Option (Nat × List Char)
  | a :: b :: rest =>
    if a.isDigit ∧ b.isDigit then some (10 * digitVal a + digitVal b, rest) else none
  | _ => none

/-- Reads exactly four decimal digit characters. -/
def parse4 : List Char → Option (Nat × List Char)
  | a :: b :: c :: d :: rest =>
    if a.isDigit ∧ b.isDigit ∧ c.isDigit ∧ d.isDigit then
      some (1000 * digitVal a + 100 * digitVal b + 10 * digitVal c + digitVal d, rest)
    else none
  | _ => none

def expectDash : List Char → Option (List Char)
  | c :: rest => if c = '-' then some rest else none
  | [] => none

def isLeapYear (y : Nat) : Bool := (y % 4 = 0 ∧ y % 100 ≠ 0) ∨ y % 400 = 0

def daysInMonth (y m : Nat) : Nat :=
  if m = 2 then (if isLeapYear y then 29 else 28)
  else if m = 4 ∨ m = 6 ∨ m = 9 ∨ m = 11 then 30
  else 31

/-- Optional fractional-seconds part: a dot followed by exactly three or six
digits (the grammar `datetime.fromisoformat` accepts before Python 3.11,
which is the grammar the scripts target: they patch the trailing `Z`
precisely because that parser rejects it).  Returns microseconds. -/
def parseFraction : List Char → Option (Nat × List Char)
  | '.' :: rest =>
    let ds := rest.takeWhile Char.isDigit
    let r := rest.dropWhile Char.isDigit
    if ds.length = 3 then some (1000 * digitsVal ds, r)
    else if ds.length = 6 then some (digitsVal ds, r)
    else none
  | l => some (0, l)

/-- Builds a UTC-offset value in seconds; `timezone` requires the absolute
offset to be strictly less than 24 hours. -/
def mkOff (c : Char) (oh om os : Nat) : Option (Option Int) :=
  let total : Nat := oh * 3600 + om * 60 + os
  if total < 86400 then
    some (some (if c = '-' then -(total : Int) else (total : Int)))
  else none

/-- Optional trailing UTC offset `±HH:MM[:SS]`, consuming the rest of the
input. -/
def parseOffset : List Char → Option (Option Int)
  | [] => some none
  | c :: rest =>
    if c = '+' ∨ c = '-' then
      match parse2 rest with
      | none => none
      | some (oh, r1) =>
        match r1 with
        | ':' :: r2 =>
          match parse2 r2 with
          | none => none
          | some (om, r3) =>
            match r3 with
            | [] => mkOff c oh om 0
            | ':' :: r4 =>
              match parse2 r4 with
              | some (os, []) => mkOff c oh om os
              | _ => none
            | _ => none
        | _ => none
    else none

/-- Time-of-day part `HH[:MM[:SS[.fff | .ffffff]]]`. -/
def parseTimeCore (l : List Char) : Option (Nat × Nat × Nat × Nat × List Char) :=
  match parse2 l with
  | none => none
  | some (h, r1) =>
    match r1 with
    | ':' :: r2 =>
      match parse2 r2 with
      | none => none
      | some (mi, r3) =>
        match r3 with
        | ':' :: r4 =>
          match parse2 r4 with
          | none => none
          | some (se, r5) =>
            match parseFraction r5 with
            | none => none
            | some (us, r6) => some (h, mi, se, us, r6)
        | _ => some (h, mi, 0, 0, r3)
    | _ => some (h, 0, 0, 0, r1)

/-- Models `datetime.fromisoformat` (the pre-3.11 grammar the scripts are
written against): `YYYY-MM-DD` optionally followed by one separator
character, a time `HH[:MM[:SS[.fff|.ffffff]]]` and an offset `±HH:MM[:SS]`;
all calendar and clock components are range-checked. -/
def fromisoformat (s : String) : Option PyDateTime := do
  let (y, r1) ← parse4 s.data
  let r2 ← expectDash r1
  let (mo, r3) ← parse2 r2
  let r4 ← expectDash r3
  let (d, r5) ← parse2 r4
  if 1 ≤ y ∧ 1 ≤ mo ∧ mo ≤ 12 ∧ 1 ≤ d ∧ d ≤ daysInMonth y mo then
    match r5 with
    | [] => some ⟨y, mo, d, 0, 0, 0, 0, none⟩
    | _sep :: r6 => do
      let (hh, mi, se, us, r7) ← parseTimeCore r6
      let off ← parseOffset r7
      if hh ≤ 23 ∧ mi ≤ 59 ∧ se ≤ 59 then
        some ⟨y, mo, d, hh, mi, se, us, off⟩
      else none
  else none

/-- `l.replace('Z', '+00:00')` on the character list: every occurrence of
`Z` is replaced, as Python `str.replace` does. -/
def replaceZChars : List Char → List Char
  | [] => []
  | c :: t =>
    if c = 'Z' then '+' :: '0' :: '0' :: ':' :: '0' :: '0' :: replaceZChars t
    else c :: replaceZChars t

def pyReplaceZ (s : String) : String := ⟨replaceZChars s.data⟩

/-- Embeds `parse_fecha_iso` of both scripts: `None` for the empty string,
otherwise `datetime.fromisoformat` on the string with `Z` replaced by
`+00:00`, and `None` again when that parse fails (the `except` arm). -/
def parse_fecha_iso (s : String) : Option PyDateTime :=
  if s = "" then none
  else fromisoformat (pyReplaceZ s)

def digitChar (n : Nat) : Char := Char.ofNat (48 + n)

/-- Models `strftime('%Y-%m')` as documented by CPython: the year zero-padded
to four digits, a dash, the month zero-padded to two digits. -/
def strftimeYM (d : PyDateTime) : String :=
  ⟨[digitChar (d.year / 1000 % 10), digitChar (d.year / 100 % 10),
    digitChar (d.year / 10 % 10), digitChar (d.year % 10), '-',
    digitChar (d.month / 10 % 10), digitChar (d.month % 10)]⟩

/-- Embeds the computation of `comp['M']` from `comp['FECHA']`:
`fecha_obj.strftime('%Y-%m') if fecha_obj else ''`. -/
def monthField (fecha : String) : String :=
  match parse_fecha_iso fecha with
  | some d => strftimeYM d
  | none => ""

/-- An XML element as `xml.etree.ElementTree` presents it: a tag (holding the
namespace in Clark notation `\x7buri\x7dLocal`), an attribute list and the
child elements in document order. -/
structure Element where
  tag : String
  attrs : List (String × String)
  children : List Element
deriving Repr

/-- `elem.get(key)`: the attribute value, or `None` when absent. -/
def Element.getAttr? (e : Element) (k : String) : Option String :=
  (e.attrs.find? (fun p => p.1 == k)).map Prod.snd

/-- Embeds `get_attrib(elem, key)` with its default `""`: empty when the
element is `None` or the attribute absent; `elem.get(key, "") or ""` also
collapses a present-but-empty value to the default. -/
def get_attrib (e : Option Element) (k : String) : String :=
  match e with
  | none => ""
  | some el =>
    match el.getAttr? k with
    | none => ""
    | some v => if v = "" then "" else v

/-- `root.get(key, '') or ''` on a (non-optional) element. -/
def attrOrEmpty (e : Element) (k : String) : String :=
  match e.getAttr? k with
  | none => ""
  | some v => if v = "" then "" else v

/-- `root.get('TipoCambio', '1') or '1'`: absent or empty collapses to
`"1"`. -/
def attrOr1 (e : Element) (k : String) : String :=
  match e.getAttr? k with
  | none => "1"
  | some v => if v = "" then "1" else v

mutual

/-- The element and all its descendants in document (preorder) order. -/
def allElems : Element → List Element
  | ⟨t, a, cs⟩ => ⟨t, a, cs⟩ :: allElemsL cs

/-- Concatenation of `allElems` over a sibling list, in document order. -/
def allElemsL : List Element → List Element
  | [] => []
  | c :: cs => allElems c ++ allElemsL cs

end

/-- All strict descendants of an element in document order: the node set the
ElementTree path `.//Name` ranges over. -/
def strictDescendants (e : Element) : List Element :=
  allElemsL e.children

/-- Clark notation for a namespace-qualified tag, as ElementTree expands
`prefix:Name` through the `NS` mapping. -/
def mkTag (uri name : String) : String := "\x7b" ++ uri ++ "\x7d" ++ name

/-- `elem.findall('.//prefix:Name', NS)`: every strict descendant with the
expanded tag, in document order. -/
def findallDesc (e : Element) (tag : String) : List Element :=
  (strictDescendants e).filter (fun c => c.tag == tag)

/-- `elem.find('.//prefix:Name', NS)`: the first strict descendant with the
expanded tag, in document order, or `None`. -/
def findDesc (e : Element) (tag : String) : Option Element :=
  (strictDescendants e).find? (fun c => c.tag == tag)

/-- Embeds `xml_namespace_of_tag`: the `uri` of a Clark-notation tag
`\x7buri\x7dLocal`, else the empty string. -/
def xml_namespace_of_tag (tag : String) : String :=
  match tag.data with
  | c :: rest => if c = '\x7b' then ⟨rest.takeWhile (fun x => x ≠ '\x7d')⟩ else ""
  | [] => ""

def URI_TFD : String := "http://www.sat.gob.mx/TimbreFiscalDigital"
def URI_PAGO20 : String := "http://www.sat.gob.mx/Pagos20"
def URI_CFD4 : String := "http://www.sat.gob.mx/cfd/4"

/-- `xml_namespace_of_tag(root.tag) or 'http://www.sat.gob.mx/cfd/4'`. -/
def cfdiUri (root : Element) : String :=
  let u := xml_namespace_of_tag root.tag
  if u = "" then URI_CFD4 else u

def dashB (c : Char) : Bool := c == '-'

def stripDashChars (l : List Char) : List Char :=
  ((l.dropWhile dashB).reverse.dropWhile dashB).reverse

/-- Python `str.strip('-')`: removes every leading and trailing `-`. -/
def pyStripDash (s : String) : String := ⟨stripDashChars s.data⟩

/-- Embeds `comp['N.FACTURA'] = f"\x7bserie\x7d-\x7bfolio\x7d".strip('-')`. -/
def invoiceNumber (serie folio : String) : String :=
  pyStripDash (serie ++ "-" ++ folio)

/-- One iteration of the `Traslado` loop on the running pair
`(iva_total, ieps_total)`. -/
def trasladoStep (acc : ℚ × ℚ) (t : Element) : ℚ × ℚ :=
  let imp := t.getAttr? "Impuesto"
  if imp = some "002" then (acc.1 + to_float (t.getAttr? "Importe") 0, acc.2)
  else if imp = some "003" then (acc.1, acc.2 + to_float (t.getAttr? "Importe") 0)
  else acc

/-- One iteration of the `Retencion` loop on the running pair
`(risr_total, riva_total)`. -/
def retencionStep (acc : ℚ × ℚ) (t : Element) : ℚ × ℚ :=
  let imp := t.getAttr? "Impuesto"
  if imp = some "001" then (acc.1 + to_float (t.getAttr? "Importe") 0, acc.2)
  else if imp = some "002" then (acc.1, acc.2 + to_float (t.getAttr? "Importe") 0)
  else acc

/-- Embeds the tax-aggregation block: locate the first `cfdi:Impuestos`
descendant and run the two accumulation loops over its `Traslado` and
`Retencion` descendants; `(iva, ieps, risr, riva)` stay `0.0` when the
container is absent. -/
def taxTotals (root : Element) (uri : String) : ℚ × ℚ × ℚ × ℚ :=
  match findDesc root (mkTag uri "Impuestos") with
  | none => (0, 0, 0, 0)
  | some imp =>
    let ti := (findallDesc imp (mkTag uri "Traslado")).foldl trasladoStep (0, 0)
    let tr := (findallDesc imp (mkTag uri "Retencion")).foldl retencionStep (0, 0)
    (ti.1, ti.2, tr.1, tr.2)

/-- Embeds the Pagos-2.0 block: the `Monto` of the first `pago20:Pago` under
the first `pago20:Pagos`, else `0.0`. -/
def pagoMonto (root : Element) : ℚ :=
  match findDesc root (mkTag URI_PAGO20 "Pagos") with
  | none => 0
  | some pagos =>
    match findDesc pagos (mkTag URI_PAGO20 "Pago") with
    | none => 0
    | some pago => to_float (pago.getAttr? "Monto") 0

/-- Embeds the body of the per-file `try` block of `procesar_xml_a_excel`:
the `comp` dict, as the association list its insertion order builds. -/
def extract (root : Element) : List (String × Value) :=
  let uri := cfdiUri root
  let emisor := findDesc root (mkTag uri "Emisor")
  let receptor := findDesc root (mkTag uri "Receptor")
  let serie := attrOrEmpty root "Serie"
  let folio := attrOrEmpty root "Folio"
  let fecha := attrOrEmpty root "Fecha"
  let t := taxTotals root uri
  let tfd := findDesc root (mkTag URI_TFD "TimbreFiscalDigital")
  [("RFC_EMISOR", .s (get_attrib emisor "Rfc")),
   ("NOMBRE_EMISOR", .s (get_attrib emisor "Nombre")),
   ("RFC_RECEPTOR", .s (get_attrib receptor "Rfc")),
   ("NOMBRE_RECEPTOR", .s (get_attrib receptor "Nombre")),
   ("FECHA", .s fecha),
   ("SERIE", .s serie),
   ("FOLIO", .s folio),
   ("N.FACTURA", .s (invoiceNumber serie folio)),
   ("SUBTOTAL", .q (to_float (root.getAttr? "SubTotal") 0)),
   ("T.FACTURA", .q (to_float (root.getAttr? "Total") 0)),
   ("Moneda", .s (attrOrEmpty root "Moneda")),
   ("TipoDeComprobante", .s (attrOrEmpty root "TipoDeComprobante")),
   ("MetodoPago", .s (attrOrEmpty root "MetodoPago")),
   ("FormaPago", .s (attrOrEmpty root "FormaPago")),
   ("UsoCFDI", .s (get_attrib receptor "UsoCFDI")),
   ("TipoCambio", .s (attrOr1 root "TipoCambio")),
   ("IVA", .q t.1),
   ("IEPS", .q t.2.1),
   ("RISR", .q t.2.2.1),
   ("RIVA", .q t.2.2.2),
   ("UUID", .s (get_attrib tfd "UUID")),
   ("P-Monto", .q (pagoMonto root)),
   ("M", .s (monthField fecha))]

/-- Lookup of a field in a record (Python dict access `comp[k]`). -/
def getField (r : List (String × Value)) (k : String) : Option Value :=
  (r.find? (fun p => p.1 == k)).map Prod.snd

/-- What happens when one discovered file is opened and processed:
`malformed` models `ET.ParseError` (the first `except` arm), `extractFails`
models any other exception the runtime raises inside the per-file `try`
block (the broad `except Exception` arm), and `wellFormed` carries the
parsed document. -/
inductive ParseOutcome where
  | malformed
  | extractFails
  | wellFormed (root : Element)

/-- A node of the directory tree handed to the pipeline; file contents are
given directly as their parse outcome (non-XML files are never opened, so
their content is irrelevant). -/
inductive FSNode where
  | file (name : String) (content : ParseOutcome)
  | dir (name : String) (entries : List FSNode)

/-- POSIX `os.path.join` for a relative component. -/
def pyJoin (a b : String) : String := a ++ "/" ++ b

/-- Python `str.lower()` (ASCII case folding suffices for the `.xml`
filter). -/
def pyLower (s : String) : String := ⟨s.data.map Char.toLower⟩

/-- The file filter `f.lower().endswith('.xml')`; `endswith` is the suffix
test on the character sequence. -/
def isXmlName (f : String) : Bool := (".xml").data.isSuffixOf (pyLower f).data

/-- The `.xml` files of one directory, in listing order: each file `f` with
`f.lower().endswith('.xml')` contributes `os.path.join(r, f)` paired with
its content. -/
def xmlFilesOf (base : String) (entries : List FSNode) : List (String × ParseOutcome) :=
  entries.filterMap (fun n =>
    match n with
    | .file f c => if isXmlName f then some (pyJoin base f, c) else none
    | .dir _ _ => none)

mutual

/-- The recursive descent of `os.walk` into the subdirectories, in listing
order: each subdirectory contributes its own matching files followed by its
own recursive descent (see `walkXml`). -/
def walkSubdirs : String → List FSNode → List (String × ParseOutcome)
  | _, [] => []
  | base, n :: rest => walkNodeSubdirs base n ++ walkSubdirs base rest

/-- Contribution of one directory entry to `walkSubdirs`: files contribute
nothing here (they were already listed by their own directory). -/
def walkNodeSubdirs : String → FSNode → List (String × ParseOutcome)
  | _, .file _ _ => []
  | base, .dir d sub => xmlFilesOf (pyJoin base d) sub ++ walkSubdirs (pyJoin base d) sub

end

/-- Embeds the `os.walk` loop of `listar_xmls_recursivo`: for each directory
top-down, the matching files of that directory in listing order, then the
subdirectories recursively in listing order. -/
def walkXml (base : String) (entries : List FSNode) : List (String × ParseOutcome) :=
  xmlFilesOf base entries ++ walkSubdirs base entries

/-- Lexicographic comparison of character sequences by code point: exactly
Python's string `<=` used by `sorted`. -/
def charListLe : List Char → List Char → Bool
  | [], _ => true
  | _ :: _, [] => false
  | a :: as, b :: bs => if a < b then true else if b < a then false else charListLe as bs

/-- The comparison `sorted` uses on paths, as a relation on strings. -/
def pathLe (a b : String) : Prop := charListLe a.data b.data = true

instance : DecidableRel pathLe := fun a b =>
  inferInstanceAs (Decidable (charListLe a.data b.data = true))

/-- Embeds `sorted` on strings: a stable comparison sort by Python's
lexicographic string order (any stable sort computes the same list;
`insertionSort` is used because it evaluates by structural recursion). -/
def pySorted (l : List String) : List String :=
  List.insertionSort pathLe l

/-- Embeds `listar_xmls_recursivo`: the discovered `.xml` paths, sorted. -/
def listar_xmls_recursivo (carpeta : String) (entries : List FSNode) : List String :=
  pySorted ((walkXml carpeta entries).map Prod.fst)

/-- Embeds the per-file loop of `procesar_xml_a_excel`: `datos` grows by one
record per file whose parse and extraction succeed; both `except` arms just
continue with the next file. -/
def processLoop : List (String × ParseOutcome) → List (List (String × Value))
  | [] => []
  | (_, .malformed) :: rest => processLoop rest
  | (_, .extractFails) :: rest => processLoop rest
  | (_, .wellFormed root) :: rest => extract root :: processLoop rest

def insertNew (cols : List String) (k : String) : List String :=
  if k ∈ cols then cols else cols ++ [k]

/-- Columns of `pd.DataFrame(datos)`: the union of the record keys in order
of first appearance. -/
def dfColumns (datos : List (List (String × Value))) : List String :=
  datos.foldl (fun cols r => r.foldl (fun cs kv => insertNew cs kv.1) cols) []

/-- The `column_order` list of both scripts. -/
def column_order : List String :=
  ["RFC_EMISOR", "RFC_RECEPTOR", "NOMBRE_EMISOR", "FECHA", "N.FACTURA",
   "SUBTOTAL", "IVA", "RISR", "RIVA", "T.FACTURA", "M", "UUID", "IEPS",
   "P-Monto", "MetodoPago", "TipoDeComprobante", "FormaPago", "UsoCFDI", "TipoCambio"]

/-- The `rename_map` of both scripts, as the function `df.rename` applies to
each column name. -/
def renameCol (c : String) : String :=
  if c = "RFC_EMISOR" then "RFC EMISOR"
  else if c = "RFC_RECEPTOR" then "RFC RECEPTOR"
  else if c = "NOMBRE_EMISOR" then "NOMBRE"
  else if c = "MetodoPago" then "MetodoP"
  else if c = "TipoDeComprobante" then "TipoCFDI"
  else if c = "FormaPago" then "FPago"
  else if c = "TipoCambio" then "Tcambio"
  else c

/-- The exported artifact: the header row, the data rows in record order,
and the processed-record count the pipeline reports (`len(datos)`). -/
structure Output where
  header : List String
  rows : List (List Value)
  count : Nat
deriving DecidableEq, Repr

/-- Embeds the tabular assembly and export shaping of both scripts:
`column_order` is filtered to the columns actually present
(`[c for c in column_order if c in df.columns]`), the frame is projected
onto it and renamed, and `to_excel` writes header plus one row per record.
(`df = df[column_order] if not df.empty else df`: for an empty record list
the filtered order is empty as well, so both branches yield the same empty
frame.)  Records produced by `extract` always carry every key; `getD` never
falls back for them. -/
def assemble (datos : List (List (String × Value))) : Output :=
  let cols := dfColumns datos
  let proj := column_order.filter (fun c => decide (c ∈ cols))
  ⟨proj.map renameCol,
   datos.map (fun r => proj.map (fun c => (getField r c).getD (.s ""))),
   datos.length⟩

/-- Embeds `procesar_xml_a_excel` of both scripts.  `fsroot = none` models
`os.path.isdir(carpeta_xml)` being false (missing path or not a directory),
the one case that raises (`FileNotFoundError`).  Otherwise the discovered
files are processed in sorted-path order and the artifact is produced; the
export boundary is modelled by returning the artifact.  (`leexmlpy.py`'s
early return on zero discovered files exports `pd.DataFrame([])`, which is
exactly what the general path produces on zero records.) -/
def procesar_xml_a_excel (carpeta : String) (fsroot : Option (List FSNode)) :
    Except String Output :=
  match fsroot with
  | none => .error ("La carpeta no existe: " ++ carpeta)
  | some entries =>
    let pares :=
      List.insertionSort (fun a b => pathLe a.1 b.1) (walkXml carpeta entries)
    .ok (assemble (processLoop pares))

mutual

/-- Specification-side contribution of one directory entry, for the
discovery claim; see `specXmlPaths`. -/
def specNodeXml : String → FSNode → List String
  | base, .file f _ => if isXmlName f then [pyJoin base f] else []
  | base, .dir d sub => specXmlPaths (pyJoin base d) sub

/-- Specification-side enumeration for the discovery claim, following the
spec text: "recursively enumerates every regular file under rootDir
(including nested directories) whose name ends in `.xml`
case-insensitively".  To be compared with `listar_xmls_recursivo`, which
embeds the code. -/
def specXmlPaths : String → List FSNode → List String
  | _, [] => []
  | base, n :: rest => specNodeXml base n ++ specXmlPaths base rest

end

/-- Sum, in document order, of the `Importe` amounts of the entries whose
`Impuesto` code equals `code`: the value the spec asserts for each tax
aggregate. -/
def sumImporte (code : String) (ts : List Element) : ℚ :=
  ((ts.filter (fun t => t.getAttr? "Impuesto" == some code)).map
    (fun t => to_float (t.getAttr? "Importe") 0)).sum

/-- The taxes container of `taxSampleDoc`: transferred-tax entries with
codes `002` (160.00), `003` (20.00) and the unrecognized `099` (5.00). -/
def taxSampleImp : Element :=
  ⟨mkTag URI_CFD4 "Impuestos", [],
   [⟨mkTag URI_CFD4 "Traslados", [],
     [⟨mkTag URI_CFD4 "Traslado", [("Impuesto", "002"), ("Importe", "160.00")], []⟩,
      ⟨mkTag URI_CFD4 "Traslado", [("Impuesto", "003"), ("Importe", "20.00")], []⟩,
      ⟨mkTag URI_CFD4 "Traslado", [("Impuesto", "099"), ("Importe", "5.00")], []⟩]⟩]⟩

/-- A sample CFDI 4.0 document used to evaluate the embedding on concrete
input. -/
def taxSampleDoc : Element :=
  ⟨mkTag URI_CFD4 "Comprobante",
   [("Fecha", "2024-03-15T10:00:00Z"), ("Serie", "A"), ("Folio", "100"),
    ("SubTotal", "1000.00"), ("Total", "1160.00")],
   [⟨mkTag URI_CFD4 "Emisor", [("Rfc", "AAA010101AAA"), ("Nombre", "ACME")], []⟩,
    taxSampleImp]⟩

/-- A document with no attributes and no children: every source of data is
absent. -/
def emptyDoc : Element := ⟨"Comprobante", [], []⟩

/-- A sample directory tree: one well-formed document, one malformed `.xml`
in a nested subdirectory, one non-XML file, and one `.xml` whose extraction
fails. -/
def sampleTree : List FSNode :=
  [.file "b.xml" (.wellFormed taxSampleDoc),
   .dir "sub" [.file "a.xml" .malformed],
   .file "c.txt" (.wellFormed emptyDoc),
   .file "d.xml" .extractFails]

/-- The same directory contents as `sampleTree`, listed in another order. -/
def sampleTree2 : List FSNode :=
  [.file "d.xml" .extractFails,
   .file "c.txt" (.wellFormed emptyDoc),
   .file "b.xml" (.wellFormed taxSampleDoc),
   .dir "sub" [.file "a.xml" .malformed]]

/-! ## Theorems -/

/-- C6: `to_float` never raises (it is a total function): it returns the
default when the input is absent (`None`) or the empty string, the parsed
decimal value when the input is a valid plain numeric literal, and the
default on any parse failure. -/
theorem to_float_spec (d : ℚ) :
    to_float none d = d ∧
    to_float (some "") d = d ∧
    (∀ s q, pyFloat? s = some q → to_float (some s) d = q) ∧
    (∀ s, pyFloat? s = none → to_float (some s) d = d) := by
  refine ⟨rfl, rfl, ?_, ?_⟩
  · intro s q h
    have hs : s ≠ "" := by
      rintro rfl
      rw [show pyFloat? "" = none from rfl] at h
      cases h
    simp [to_float, hs, h]
  · intro s h
    by_cases hs : s = ""
    · subst hs; rfl
    · simp [to_float, hs, h]

/-- Witness for `to_float_spec`, applying it at concrete inputs. -/
theorem to_float_spec_witness :
    pyFloat? "160.00" = some 160 ∧ to_float (some "160.00") 7 = 160 ∧
    pyFloat? "12x" = none ∧ to_float (some "12x") 7 = 7 :=
  ⟨by decide, (to_float_spec 7).2.2.1 "160.00" 160 (by decide), by decide,
   (to_float_spec 7).2.2.2 "12x" (by decide)⟩

theorem replaceZChars_append (l1 l2 : List Char) :
    replaceZChars (l1 ++ l2) = replaceZChars l1 ++ replaceZChars l2 := by
  induction l1 with
  | nil => simp [replaceZChars]
  | cons c t ih =>
    by_cases hc : c = 'Z' <;> simp [replaceZChars, hc, ih]

theorem replaceZChars_of_not_mem (l : List Char) (h : 'Z' ∉ l) :
    replaceZChars l = l := by
  induction l with
  | nil => rfl
  | cons c t ih =>
    have hc : c ≠ 'Z' := fun hz => h (hz ▸ List.mem_cons_self c t)
    have ht : 'Z' ∉ t := fun hz => h (List.mem_cons_of_mem c hz)
    simp [replaceZChars, hc, ih ht]

/-- C7: `parse_fecha_iso` never raises (it is a total function): it returns
no date for the empty string, treats a trailing literal `Z` as the UTC
offset `+00:00` (so a `Z`-suffixed ISO-8601 timestamp parses successfully),
and returns no date whenever the patched input is not ISO-8601. -/
theorem parse_fecha_iso_spec :
    parse_fecha_iso "" = none ∧
    (∀ s : String, 'Z' ∉ s.data →
      parse_fecha_iso (s ++ "Z") = fromisoformat (s ++ "+00:00")) ∧
    (∀ s : String, fromisoformat (pyReplaceZ s) = none → parse_fecha_iso s = none) := by
  refine ⟨rfl, ?_, ?_⟩
  · intro s hz
    have hne : s ++ "Z" ≠ "" := by
      intro h
      have := congrArg String.data h
      simp at this
    have hdata : pyReplaceZ (s ++ "Z") = s ++ "+00:00" := by
      apply String.ext
      show replaceZChars (s ++ "Z").data = (s ++ "+00:00").data
      rw [String.data_append, String.data_append, replaceZChars_append,
        replaceZChars_of_not_mem s.data hz]
      rfl
    rw [parse_fecha_iso, if_neg hne, hdata]
  · intro s h
    by_cases hs : s = ""
    · subst hs; rfl
    · rw [parse_fecha_iso, if_neg hs, h]

/-- Witness for `parse_fecha_iso_spec`, applying it at concrete inputs. -/
theorem parse_fecha_iso_spec_witness :
    parse_fecha_iso ("2024-03-15T10:00:00" ++ "Z") =
      fromisoformat ("2024-03-15T10:00:00" ++ "+00:00") ∧
    fromisoformat ("2024-03-15T10:00:00" ++ "+00:00") =
      some ⟨2024, 3, 15, 10, 0, 0, 0, some 0⟩ ∧
    parse_fecha_iso "not a date" = none :=
  ⟨parse_fecha_iso_spec.2.1 "2024-03-15T10:00:00" (by decide), by decide,
   parse_fecha_iso_spec.2.2 "not a date" (by decide)⟩

theorem dropWhile_dash_eq_self {l : List Char} (h : l.head? ≠ some '-') :
    l.dropWhile dashB = l := by
  cases l with
  | nil => rfl
  | cons c t =>
    have hc : ¬ dashB c := by
      intro hb
      apply h
      have : c = '-' := by simpa [dashB] using hb
      simp [this]
    simp [List.dropWhile_cons_of_neg hc]

theorem stripDashChars_eq_self {l : List Char} (h1 : l.head? ≠ some '-')
    (h2 : l.getLast? ≠ some '-') : stripDashChars l = l := by
  unfold stripDashChars
  rw [dropWhile_dash_eq_self h1, dropWhile_dash_eq_self (by simpa using h2),
    List.reverse_reverse]

theorem stripDashChars_cons_dash (f : List Char) :
    stripDashChars ('-' :: f) = stripDashChars f := by
  unfold stripDashChars
  rw [List.dropWhile_cons_of_pos (by simp [dashB])]

/-- C3 counterexample: for series `"-A"` and folio `"100"` the code yields
`"A-100"` — `.strip('-')` also removes the dash belonging to the series
itself — while the claim (series, separator and folio concatenated, with
stripping only when one part is empty) predicts `"-A-100"`. -/
theorem invoiceNumber_counterexample :
    getField (extract ⟨"Comprobante", [("Serie", "-A"), ("Folio", "100")], []⟩)
        "N.FACTURA" = some (.s "A-100") ∧
    invoiceNumber "-A" "100" ≠ "-A" ++ "-" ++ "100" := by
  constructor
  · decide
  · decide

/-- C3 amended: the derived invoice number is `series ++ "-" ++ folio` with
ALL leading and trailing `-` characters stripped; whenever neither part
itself starts or ends with a dash, this is exactly the claim's description:
the plain concatenation, with the dangling separator removed when either
part is empty (series `"A"`/folio `"100"` give `"A-100"`, `""`/`"100"` give
`"100"`, and two empty parts give `""`). -/
theorem invoiceNumber_amended (serie folio : String)
    (hs1 : serie.data.head? ≠ some '-') (hs2 : serie.data.getLast? ≠ some '-')
    (hf1 : folio.data.head? ≠ some '-') (hf2 : folio.data.getLast? ≠ some '-') :
    invoiceNumber serie folio =
      if serie = "" then folio
      else if folio = "" then serie
      else serie ++ "-" ++ folio := by
  have hdata : (serie ++ "-" ++ folio).data = serie.data ++ '-' :: folio.data := by
    simp
  by_cases hs : serie = ""
  · subst hs
    rw [if_pos rfl]
    apply String.ext
    show stripDashChars (("" ++ "-" ++ folio).data) = folio.data
    rw [hdata]
    simp only [List.nil_append]
    rw [stripDashChars_cons_dash, stripDashChars_eq_self hf1 hf2]
  · obtain ⟨c, cs, hsd⟩ : ∃ c cs, serie.data = c :: cs := by
      cases hsd : serie.data with
      | nil => exact absurd (String.ext hsd) hs
      | cons c cs => exact ⟨c, cs, rfl⟩
    have hchead : c ≠ '-' := by
      intro hc
      exact hs1 (by simp [hsd, hc])
    rw [if_neg hs]
    by_cases hf : folio = ""
    · subst hf
      rw [if_pos rfl]
      apply String.ext
      show stripDashChars ((serie ++ "-" ++ "").data) = serie.data
      rw [hdata]
      unfold stripDashChars
      rw [dropWhile_dash_eq_self (l := serie.data ++ '-' :: [])
        (by rw [hsd]; simpa using hchead)]
      rw [List.reverse_append]
      simp only [List.reverse_cons, List.reverse_nil, List.nil_append,
        List.singleton_append]
      rw [List.dropWhile_cons_of_pos (by simp [dashB]),
        dropWhile_dash_eq_self (by simpa using hs2), List.reverse_reverse]
    · obtain ⟨g, gs, hfd⟩ : ∃ g gs, folio.data = g :: gs := by
        cases hfd : folio.data with
        | nil => exact absurd (String.ext hfd) hf
        | cons g gs => exact ⟨g, gs, rfl⟩
      rw [if_neg hf]
      apply String.ext
      show stripDashChars ((serie ++ "-" ++ folio).data) = (serie ++ "-" ++ folio).data
      apply stripDashChars_eq_self
      · rw [hdata, hsd]
        simpa using hchead
      · rw [hdata]
        rw [List.getLast?_append]
        have : ('-' :: folio.data).getLast? = folio.data.getLast? := by
          rw [hfd]
          exact List.getLast?_cons_cons ..
        rw [this]
        cases hgl : folio.data.getLast? with
        | none => rw [hfd] at hgl; simp at hgl
        | some x =>
          have hx : x ≠ '-' := by
            intro hx
            exact hf2 (by rw [hgl, hx])
          simpa using hx

/-- Witness for `invoiceNumber_amended`, applying it at the claim's three
example inputs. -/
theorem invoiceNumber_amended_witness :
    invoiceNumber "A" "100" = "A-100" ∧ invoiceNumber "" "100" = "100" ∧
    invoiceNumber "" "" = "" := by
  refine ⟨?_, ?_, ?_⟩
  · rw [invoiceNumber_amended "A" "100" (by decide) (by decide) (by decide) (by decide)]
    decide
  · rw [invoiceNumber_amended "" "100" (by decide) (by decide) (by decide) (by decide)]
    decide
  · rw [invoiceNumber_amended "" "" (by decide) (by decide) (by decide) (by decide)]
    decide

theorem toNat_bounds_of_isDigit {c : Char} (h : c.isDigit) :
    48 ≤ c.toNat ∧ c.toNat ≤ 57 := by
  simp only [Char.isDigit, ge_iff_le, Bool.and_eq_true, decide_eq_true_eq] at h
  obtain ⟨h1, h2⟩ := h
  rw [UInt32.le_def, BitVec.le_def] at h1 h2
  exact ⟨h1, h2⟩

theorem digitVal_lt_ten {c : Char} (h : c.isDigit) : digitVal c < 10 := by
  have := toNat_bounds_of_isDigit h
  unfold digitVal
  omega

theorem digitChar_digitVal {c : Char} (h : c.isDigit) :
    digitChar (digitVal c) = c := by
  have hb := toNat_bounds_of_isDigit h
  unfold digitChar digitVal
  rw [show 48 + (c.toNat - 48) = c.toNat by omega]
  exact Char.ofNat_toNat c

theorem isDigit_ne_plus {c : Char} (h : c.isDigit) : c ≠ '+' := by
  intro hc
  rw [hc] at h
  exact absurd h (by decide)

theorem parse2_some {l : List Char} {n : Nat} {r : List Char}
    (h : parse2 l = some (n, r)) :
    ∃ a b, l = a :: b :: r ∧ a.isDigit ∧ b.isDigit ∧
      n = 10 * digitVal a + digitVal b := by
  cases l with
  | nil => exact Option.noConfusion h
  | cons a t =>
    cases t with
    | nil => exact Option.noConfusion h
    | cons b t2 =>
      simp only [parse2] at h
      by_cases hd : a.isDigit ∧ b.isDigit
      · rw [if_pos hd] at h
        have h1 := Option.some.inj h
        rw [Prod.mk.injEq] at h1
        obtain ⟨rfl, rfl⟩ := h1
        exact ⟨a, b, rfl, hd.1, hd.2, rfl⟩
      · rw [if_neg hd] at h
        exact Option.noConfusion h

theorem parse4_some {l : List Char} {n : Nat} {r : List Char}
    (h : parse4 l = some (n, r)) :
    ∃ a b c d, l = a :: b :: c :: d :: r ∧
      a.isDigit ∧ b.isDigit ∧ c.isDigit ∧ d.isDigit ∧
      n = 1000 * digitVal a + 100 * digitVal b + 10 * digitVal c + digitVal d := by
  cases l with
  | nil => exact Option.noConfusion h
  | cons a t =>
    cases t with
    | nil => exact Option.noConfusion h
    | cons b t2 =>
      cases t2 with
      | nil => exact Option.noConfusion h
      | cons c t3 =>
        cases t3 with
        | nil => exact Option.noConfusion h
        | cons d t4 =>
          simp only [parse4] at h
          by_cases hd : a.isDigit ∧ b.isDigit ∧ c.isDigit ∧ d.isDigit
          · rw [if_pos hd] at h
            have h1 := Option.some.inj h
            rw [Prod.mk.injEq] at h1
            obtain ⟨rfl, rfl⟩ := h1
            exact ⟨a, b, c, d, rfl, hd.1, hd.2.1, hd.2.2.1, hd.2.2.2, rfl⟩
          · rw [if_neg hd] at h
            exact Option.noConfusion h

theorem expectDash_some {l r : List Char} (h : expectDash l = some r) :
    l = '-' :: r := by
  cases l with
  | nil => exact Option.noConfusion h
  | cons c t =>
    simp only [expectDash] at h
    by_cases hc : c = '-'
    · subst hc
      rw [if_pos rfl] at h
      rw [Option.some.inj h]
    · rw [if_neg hc] at h
      exact Option.noConfusion h

theorem fromisoformat_shape {s : String} {dt : PyDateTime}
    (h : fromisoformat s = some dt) :
    ∃ a b c d e f rest, s.data = a :: b :: c :: d :: '-' :: e :: f :: rest ∧
      (a.isDigit ∧ b.isDigit ∧ c.isDigit ∧ d.isDigit) ∧ (e.isDigit ∧ f.isDigit) ∧
      dt.year = 1000 * digitVal a + 100 * digitVal b + 10 * digitVal c + digitVal d ∧
      dt.month = 10 * digitVal e + digitVal f := by
  unfold fromisoformat at h
  simp only [Option.bind_eq_bind, Option.bind_eq_some] at h
  obtain ⟨⟨y, r1⟩, h4, r2, hd1, ⟨mo, r3⟩, h2, r4, hd2, ⟨dd, r5⟩, h5, h⟩ := h
  obtain ⟨a, b, hab⟩ := parse4_some h4
  obtain ⟨c, d, hl4, ha, hb2, hc2, hd2', hy⟩ := hab
  have hr1 : r1 = '-' :: r2 := expectDash_some hd1
  obtain ⟨e, f, hl2, he, hf2, hmo⟩ := parse2_some h2
  have hym : dt.year = y ∧ dt.month = mo := by
    split at h
    · split at h
      · exact ⟨congrArg PyDateTime.year (Option.some.inj h).symm,
          congrArg PyDateTime.month (Option.some.inj h).symm⟩
      · simp only [Option.bind_eq_bind, Option.bind_eq_some] at h
        obtain ⟨⟨hh, mi, se, us, r7⟩, ht, off, ho, h⟩ := h
        split at h
        · exact ⟨congrArg PyDateTime.year (Option.some.inj h).symm,
            congrArg PyDateTime.month (Option.some.inj h).symm⟩
        · exact Option.noConfusion h
    · exact Option.noConfusion h
  refine ⟨a, b, c, d, e, f, r3, ?_, ⟨ha, hb2, hc2, hd2'⟩, ⟨he, hf2⟩, ?_, ?_⟩
  · rw [hl4, hr1, hl2]
  · rw [hym.1, hy]
  · rw [hym.2, hmo]

theorem take_replaceZ (l : List Char) : ∀ k : Nat,
    '+' ∉ (replaceZChars l).take k → (replaceZChars l).take k = l.take k := by
  induction l with
  | nil => intro k _; rfl
  | cons c t ih =>
    intro k h
    by_cases hc : c = 'Z'
    · subst hc
      cases k with
      | zero => rfl
      | succ k =>
        exfalso
        apply h
        rw [show replaceZChars ('Z' :: t) =
            '+' :: '0' :: '0' :: ':' :: '0' :: '0' :: replaceZChars t by
          simp [replaceZChars]]
        rw [List.take_succ_cons]
        exact List.mem_cons_self _ _
    · have hrz : replaceZChars (c :: t) = c :: replaceZChars t := by
        simp [replaceZChars, hc]
      rw [hrz] at h ⊢
      cases k with
      | zero => rfl
      | succ k =>
        rw [List.take_succ_cons, List.take_succ_cons]
        have hmem : '+' ∉ (replaceZChars t).take k := by
          intro hp
          exact h (by rw [List.take_succ_cons]; exact List.mem_cons_of_mem _ hp)
        rw [ih k hmem]

/-- C4: for every record, the derived year-month field is the empty string
unless the raw issue-date string parses as a valid date-time; when it does
parse, the field equals exactly the 7-character `YYYY-MM` prefix of that
date string. -/
theorem monthField_spec (fecha : String) :
    (parse_fecha_iso fecha = none → monthField fecha = "") ∧
    (∀ dt, parse_fecha_iso fecha = some dt →
      monthField fecha = ⟨fecha.data.take 7⟩ ∧ (fecha.data.take 7).length = 7) := by
  constructor
  · intro h
    unfold monthField
    rw [h]
  · intro dt h
    have hm : monthField fecha = strftimeYM dt := by
      unfold monthField
      rw [h]
    unfold parse_fecha_iso at h
    by_cases hemp : fecha = ""
    · rw [if_pos hemp] at h
      exact Option.noConfusion h
    rw [if_neg hemp] at h
    obtain ⟨a, b, c, d, e, f, rest, hshape, ⟨ha, hb, hc, hd⟩, ⟨he, hf⟩, hyear, hmonth⟩ :=
      fromisoformat_shape h
    have hrz : replaceZChars fecha.data = a :: b :: c :: d :: '-' :: e :: f :: rest :=
      hshape
    have htake : (replaceZChars fecha.data).take 7 = [a, b, c, d, '-', e, f] := by
      rw [hrz]
      rfl
    have hplus : '+' ∉ (replaceZChars fecha.data).take 7 := by
      rw [htake]
      intro hmem
      simp only [List.mem_cons, List.not_mem_nil, or_false] at hmem
      rcases hmem with h1 | h1 | h1 | h1 | h1 | h1 | h1
      · exact isDigit_ne_plus ha h1.symm
      · exact isDigit_ne_plus hb h1.symm
      · exact isDigit_ne_plus hc h1.symm
      · exact isDigit_ne_plus hd h1.symm
      · exact absurd h1 (by decide)
      · exact isDigit_ne_plus he h1.symm
      · exact isDigit_ne_plus hf h1.symm
    have h7 : fecha.data.take 7 = [a, b, c, d, '-', e, f] := by
      rw [← take_replaceZ fecha.data 7 hplus, htake]
    have hA := digitVal_lt_ten ha
    have hB := digitVal_lt_ten hb
    have hC := digitVal_lt_ten hc
    have hD := digitVal_lt_ten hd
    have hE := digitVal_lt_ten he
    have hF := digitVal_lt_ten hf
    constructor
    · rw [hm]
      apply String.ext
      show [digitChar (dt.year / 1000 % 10), digitChar (dt.year / 100 % 10),
        digitChar (dt.year / 10 % 10), digitChar (dt.year % 10), '-',
        digitChar (dt.month / 10 % 10), digitChar (dt.month % 10)] =
        fecha.data.take 7
      rw [h7, hyear, hmonth]
      rw [show (1000 * digitVal a + 100 * digitVal b + 10 * digitVal c + digitVal d)
          / 1000 % 10 = digitVal a by omega]
      rw [show (1000 * digitVal a + 100 * digitVal b + 10 * digitVal c + digitVal d)
          / 100 % 10 = digitVal b by omega]
      rw [show (1000 * digitVal a + 100 * digitVal b + 10 * digitVal c + digitVal d)
          / 10 % 10 = digitVal c by omega]
      rw [show (1000 * digitVal a + 100 * digitVal b + 10 * digitVal c + digitVal d)
          % 10 = digitVal d by omega]
      rw [show (10 * digitVal e + digitVal f) / 10 % 10 = digitVal e by omega]
      rw [show (10 * digitVal e + digitVal f) % 10 = digitVal f by omega]
      rw [digitChar_digitVal ha, digitChar_digitVal hb, digitChar_digitVal hc,
        digitChar_digitVal hd, digitChar_digitVal he, digitChar_digitVal hf]
    · rw [h7]
      rfl

/-- Witness for `monthField_spec`, applying it at the claim's example date. -/
theorem monthField_spec_witness :
    parse_fecha_iso "2024-03-15T10:00:00Z" = some ⟨2024, 3, 15, 10, 0, 0, 0, some 0⟩ ∧
    monthField "2024-03-15T10:00:00Z" = ⟨("2024-03-15T10:00:00Z").data.take 7⟩ ∧
    monthField "2024-03-15T10:00:00Z" = "2024-03" :=
  ⟨by decide,
   ((monthField_spec "2024-03-15T10:00:00Z").2 ⟨2024, 3, 15, 10, 0, 0, 0, some 0⟩
     (by decide)).1,
   by decide⟩

theorem sumImporte_cons_pos {code : String} {t : Element} (ts : List Element)
    (h : t.getAttr? "Impuesto" = some code) :
    sumImporte code (t :: ts) =
      to_float (t.getAttr? "Importe") 0 + sumImporte code ts := by
  unfold sumImporte
  rw [List.filter_cons, if_pos (by simp [h])]
  simp

theorem sumImporte_cons_neg {code : String} {t : Element} (ts : List Element)
    (h : ¬ t.getAttr? "Impuesto" = some code) :
    sumImporte code (t :: ts) = sumImporte code ts := by
  unfold sumImporte
  rw [List.filter_cons, if_neg (by simp [h])]

theorem foldl_trasladoStep (ts : List Element) : ∀ p : ℚ × ℚ,
    ts.foldl trasladoStep p = (p.1 + sumImporte "002" ts, p.2 + sumImporte "003" ts) := by
  induction ts with
  | nil =>
    intro p
    simp [sumImporte]
  | cons t ts ih =>
    intro p
    rw [List.foldl_cons, ih]
    unfold trasladoStep
    by_cases h2 : t.getAttr? "Impuesto" = some "002"
    · have h3 : ¬ t.getAttr? "Impuesto" = some "003" := by
        rw [h2]
        intro hcon
        exact absurd (Option.some.inj hcon) (by decide)
      rw [if_pos h2, sumImporte_cons_pos ts h2, sumImporte_cons_neg ts h3]
      simp [add_assoc]
    · by_cases h3 : t.getAttr? "Impuesto" = some "003"
      · rw [if_neg h2, if_pos h3, sumImporte_cons_neg ts h2, sumImporte_cons_pos ts h3]
        simp [add_assoc]
      · rw [if_neg h2, if_neg h3, sumImporte_cons_neg ts h2, sumImporte_cons_neg ts h3]

theorem foldl_retencionStep (ts : List Element) : ∀ p : ℚ × ℚ,
    ts.foldl retencionStep p = (p.1 + sumImporte "001" ts, p.2 + sumImporte "002" ts) := by
  induction ts with
  | nil =>
    intro p
    simp [sumImporte]
  | cons t ts ih =>
    intro p
    rw [List.foldl_cons, ih]
    unfold retencionStep
    by_cases h1 : t.getAttr? "Impuesto" = some "001"
    · have h2 : ¬ t.getAttr? "Impuesto" = some "002" := by
        rw [h1]
        intro hcon
        exact absurd (Option.some.inj hcon) (by decide)
      rw [if_pos h1, sumImporte_cons_pos ts h1, sumImporte_cons_neg ts h2]
      simp [add_assoc]
    · by_cases h2 : t.getAttr? "Impuesto" = some "002"
      · rw [if_neg h1, if_pos h2, sumImporte_cons_neg ts h1, sumImporte_cons_pos ts h2]
        simp [add_assoc]
      · rw [if_neg h1, if_neg h2, sumImporte_cons_neg ts h1, sumImporte_cons_neg ts h2]

theorem taxTotals_none {root : Element} {uri : String}
    (h : findDesc root (mkTag uri "Impuestos") = none) :
    taxTotals root uri = (0, 0, 0, 0) := by
  unfold taxTotals
  rw [h]

theorem taxTotals_some {root : Element} {uri : String} {imp : Element}
    (h : findDesc root (mkTag uri "Impuestos") = some imp) :
    taxTotals root uri =
      (sumImporte "002" (findallDesc imp (mkTag uri "Traslado")),
       sumImporte "003" (findallDesc imp (mkTag uri "Traslado")),
       sumImporte "001" (findallDesc imp (mkTag uri "Retencion")),
       sumImporte "002" (findallDesc imp (mkTag uri "Retencion"))) := by
  unfold taxTotals
  rw [h]
  simp only [foldl_trasladoStep, foldl_retencionStep, zero_add]

/-- C2: the four tax aggregates of an extracted record are the sums, in
document order, over the located taxes container's entries: a transferred
entry's amount counts toward the VAT aggregate exactly when its code is
`002` and toward the excise aggregate exactly when it is `003`; a withheld
entry's amount counts toward the income-tax aggregate exactly when its code
is `001` and toward the withheld-VAT aggregate exactly when it is `002`;
entries with any other code count toward nothing, and without a taxes
container all four aggregates are `0.0`. -/
theorem tax_aggregates_spec (e : Element) :
    getField (extract e) "IVA" = some (.q (taxTotals e (cfdiUri e)).1) ∧
    getField (extract e) "IEPS" = some (.q (taxTotals e (cfdiUri e)).2.1) ∧
    getField (extract e) "RISR" = some (.q (taxTotals e (cfdiUri e)).2.2.1) ∧
    getField (extract e) "RIVA" = some (.q (taxTotals e (cfdiUri e)).2.2.2) ∧
    (∀ imp, findDesc e (mkTag (cfdiUri e) "Impuestos") = some imp →
      taxTotals e (cfdiUri e) =
        (sumImporte "002" (findallDesc imp (mkTag (cfdiUri e) "Traslado")),
         sumImporte "003" (findallDesc imp (mkTag (cfdiUri e) "Traslado")),
         sumImporte "001" (findallDesc imp (mkTag (cfdiUri e) "Retencion")),
         sumImporte "002" (findallDesc imp (mkTag (cfdiUri e) "Retencion")))) ∧
    (findDesc e (mkTag (cfdiUri e) "Impuestos") = none →
      taxTotals e (cfdiUri e) = (0, 0, 0, 0)) :=
  ⟨rfl, rfl, rfl, rfl, fun _ h => taxTotals_some h, fun h => taxTotals_none h⟩

/-- Witness for `tax_aggregates_spec`: on `taxSampleDoc`, codes `002` and
`003` yield VAT 160 and excise 20, and the unrecognized `099` contributes
to neither. -/
theorem tax_aggregates_spec_witness :
    taxTotals taxSampleDoc (cfdiUri taxSampleDoc) = (160, 20, 0, 0) ∧
    getField (extract taxSampleDoc) "IVA" = some (.q 160) ∧
    getField (extract taxSampleDoc) "IEPS" = some (.q 20) ∧
    getField (extract taxSampleDoc) "RISR" = some (.q 0) ∧
    getField (extract taxSampleDoc) "RIVA" = some (.q 0) := by
  have hval := (tax_aggregates_spec taxSampleDoc).2.2.2.2.1 taxSampleImp (by rfl)
  have hiva := (tax_aggregates_spec taxSampleDoc).1
  have hieps := (tax_aggregates_spec taxSampleDoc).2.1
  have hrisr := (tax_aggregates_spec taxSampleDoc).2.2.1
  have hriva := (tax_aggregates_spec taxSampleDoc).2.2.2.1
  have hv : taxTotals taxSampleDoc (cfdiUri taxSampleDoc) = (160, 20, 0, 0) := by
    rw [hval]
    decide
  refine ⟨hv, ?_, ?_, ?_, ?_⟩
  · rw [hiva, hv]
  · rw [hieps, hv]
  · rw [hrisr, hv]
  · rw [hriva, hv]

/-- C9: every successfully extracted record has exactly the same fixed
field vocabulary (the 23 keys of the `comp` dict, in insertion order), and
missing source data resolves to the empty string for string fields, `0.0`
for numeric fields and `"1"` for the exchange rate — never to an absent
field. -/
theorem record_schema_spec (e : Element) :
    (extract e).map Prod.fst =
      ["RFC_EMISOR", "NOMBRE_EMISOR", "RFC_RECEPTOR", "NOMBRE_RECEPTOR", "FECHA",
       "SERIE", "FOLIO", "N.FACTURA", "SUBTOTAL", "T.FACTURA", "Moneda",
       "TipoDeComprobante", "MetodoPago", "FormaPago", "UsoCFDI", "TipoCambio",
       "IVA", "IEPS", "RISR", "RIVA", "UUID", "P-Monto", "M"] ∧
    (findDesc e (mkTag (cfdiUri e) "Emisor") = none →
      getField (extract e) "RFC_EMISOR" = some (.s "") ∧
      getField (extract e) "NOMBRE_EMISOR" = some (.s "")) ∧
    (findDesc e (mkTag (cfdiUri e) "Receptor") = none →
      getField (extract e) "RFC_RECEPTOR" = some (.s "") ∧
      getField (extract e) "NOMBRE_RECEPTOR" = some (.s "") ∧
      getField (extract e) "UsoCFDI" = some (.s "")) ∧
    (e.getAttr? "Fecha" = none →
      getField (extract e) "FECHA" = some (.s "") ∧
      getField (extract e) "M" = some (.s "")) ∧
    (e.getAttr? "Serie" = none → getField (extract e) "SERIE" = some (.s "")) ∧
    (e.getAttr? "Folio" = none → getField (extract e) "FOLIO" = some (.s "")) ∧
    (e.getAttr? "Serie" = none → e.getAttr? "Folio" = none →
      getField (extract e) "N.FACTURA" = some (.s "")) ∧
    (e.getAttr? "SubTotal" = none → getField (extract e) "SUBTOTAL" = some (.q 0)) ∧
    (e.getAttr? "Total" = none → getField (extract e) "T.FACTURA" = some (.q 0)) ∧
    (e.getAttr? "Moneda" = none → getField (extract e) "Moneda" = some (.s "")) ∧
    (e.getAttr? "TipoDeComprobante" = none →
      getField (extract e) "TipoDeComprobante" = some (.s "")) ∧
    (e.getAttr? "MetodoPago" = none → getField (extract e) "MetodoPago" = some (.s "")) ∧
    (e.getAttr? "FormaPago" = none → getField (extract e) "FormaPago" = some (.s "")) ∧
    (e.getAttr? "TipoCambio" = none → getField (extract e) "TipoCambio" = some (.s "1")) ∧
    (findDesc e (mkTag (cfdiUri e) "Impuestos") = none →
      getField (extract e) "IVA" = some (.q 0) ∧
      getField (extract e) "IEPS" = some (.q 0) ∧
      getField (extract e) "RISR" = some (.q 0) ∧
      getField (extract e) "RIVA" = some (.q 0)) ∧
    (findDesc e (mkTag URI_TFD "TimbreFiscalDigital") = none →
      getField (extract e) "UUID" = some (.s "")) ∧
    (findDesc e (mkTag URI_PAGO20 "Pagos") = none →
      getField (extract e) "P-Monto" = some (.q 0)) := by
  refine ⟨rfl, ?_, ?_, ?_, ?_, ?_, ?_, ?_, ?_, ?_, ?_, ?_, ?_, ?_, ?_, ?_, ?_⟩
  · intro h
    constructor
    · have hl : getField (extract e) "RFC_EMISOR" =
          some (.s (get_attrib (findDesc e (mkTag (cfdiUri e) "Emisor")) "Rfc")) := rfl
      rw [hl, h]
      try rfl
    · have hl : getField (extract e) "NOMBRE_EMISOR" =
          some (.s (get_attrib (findDesc e (mkTag (cfdiUri e) "Emisor")) "Nombre")) := rfl
      rw [hl, h]
      try rfl
  · intro h
    refine ⟨?_, ?_, ?_⟩
    · have hl : getField (extract e) "RFC_RECEPTOR" =
          some (.s (get_attrib (findDesc e (mkTag (cfdiUri e) "Receptor")) "Rfc")) := rfl
      rw [hl, h]
      try rfl
    · have hl : getField (extract e) "NOMBRE_RECEPTOR" =
          some (.s (get_attrib (findDesc e (mkTag (cfdiUri e) "Receptor")) "Nombre")) := rfl
      rw [hl, h]
      try rfl
    · have hl : getField (extract e) "UsoCFDI" =
          some (.s (get_attrib (findDesc e (mkTag (cfdiUri e) "Receptor")) "UsoCFDI")) := rfl
      rw [hl, h]
      try rfl
  · intro h
    constructor
    · have hl : getField (extract e) "FECHA" = some (.s (attrOrEmpty e "Fecha")) := rfl
      rw [hl]
      unfold attrOrEmpty
      rw [h]
      try rfl
    · have hl : getField (extract e) "M" =
          some (.s (monthField (attrOrEmpty e "Fecha"))) := rfl
      rw [hl]
      unfold attrOrEmpty
      rw [h]
      try rfl
  · intro h
    have hl : getField (extract e) "SERIE" = some (.s (attrOrEmpty e "Serie")) := rfl
    rw [hl]
    unfold attrOrEmpty
    rw [h]
    try rfl
  · intro h
    have hl : getField (extract e) "FOLIO" = some (.s (attrOrEmpty e "Folio")) := rfl
    rw [hl]
    unfold attrOrEmpty
    rw [h]
    try rfl
  · intro hs hf
    have hl : getField (extract e) "N.FACTURA" =
        some (.s (invoiceNumber (attrOrEmpty e "Serie") (attrOrEmpty e "Folio"))) := rfl
    rw [hl]
    unfold attrOrEmpty
    rw [hs, hf]
    try rfl
  · intro h
    have hl : getField (extract e) "SUBTOTAL" =
        some (.q (to_float (e.getAttr? "SubTotal") 0)) := rfl
    rw [hl, h]
    try rfl
  · intro h
    have hl : getField (extract e) "T.FACTURA" =
        some (.q (to_float (e.getAttr? "Total") 0)) := rfl
    rw [hl, h]
    try rfl
  · intro h
    have hl : getField (extract e) "Moneda" = some (.s (attrOrEmpty e "Moneda")) := rfl
    rw [hl]
    unfold attrOrEmpty
    rw [h]
    try rfl
  · intro h
    have hl : getField (extract e) "TipoDeComprobante" =
        some (.s (attrOrEmpty e "TipoDeComprobante")) := rfl
    rw [hl]
    unfold attrOrEmpty
    rw [h]
    try rfl
  · intro h
    have hl : getField (extract e) "MetodoPago" =
        some (.s (attrOrEmpty e "MetodoPago")) := rfl
    rw [hl]
    unfold attrOrEmpty
    rw [h]
    try rfl
  · intro h
    have hl : getField (extract e) "FormaPago" =
        some (.s (attrOrEmpty e "FormaPago")) := rfl
    rw [hl]
    unfold attrOrEmpty
    rw [h]
    try rfl
  · intro h
    have hl : getField (extract e) "TipoCambio" =
        some (.s (attrOr1 e "TipoCambio")) := rfl
    rw [hl]
    unfold attrOr1
    rw [h]
    try rfl
  · intro h
    have h0 := taxTotals_none h
    refine ⟨?_, ?_, ?_, ?_⟩
    · have hl : getField (extract e) "IVA" =
          some (.q (taxTotals e (cfdiUri e)).1) := rfl
      rw [hl, h0]
      try rfl
    · have hl : getField (extract e) "IEPS" =
          some (.q (taxTotals e (cfdiUri e)).2.1) := rfl
      rw [hl, h0]
      try rfl
    · have hl : getField (extract e) "RISR" =
          some (.q (taxTotals e (cfdiUri e)).2.2.1) := rfl
      rw [hl, h0]
      try rfl
    · have hl : getField (extract e) "RIVA" =
          some (.q (taxTotals e (cfdiUri e)).2.2.2) := rfl
      rw [hl, h0]
      try rfl
  · intro h
    have hl : getField (extract e) "UUID" =
        some (.s (get_attrib (findDesc e (mkTag URI_TFD "TimbreFiscalDigital")) "UUID")) := rfl
    rw [hl, h]
    try rfl
  · intro h
    have hl : getField (extract e) "P-Monto" = some (.q (pagoMonto e)) := rfl
    rw [hl]
    unfold pagoMonto
    rw [h]
    try rfl

/-- Witness for `record_schema_spec`, applying it at a document with no
attributes and no children. -/
theorem record_schema_spec_witness :
    (extract emptyDoc).map Prod.fst =
      ["RFC_EMISOR", "NOMBRE_EMISOR", "RFC_RECEPTOR", "NOMBRE_RECEPTOR", "FECHA",
       "SERIE", "FOLIO", "N.FACTURA", "SUBTOTAL", "T.FACTURA", "Moneda",
       "TipoDeComprobante", "MetodoPago", "FormaPago", "UsoCFDI", "TipoCambio",
       "IVA", "IEPS", "RISR", "RIVA", "UUID", "P-Monto", "M"] ∧
    getField (extract emptyDoc) "RFC_EMISOR" = some (.s "") ∧
    getField (extract emptyDoc) "TipoCambio" = some (.s "1") ∧
    getField (extract emptyDoc) "SUBTOTAL" = some (.q 0) ∧
    getField (extract emptyDoc) "IVA" = some (.q 0) := by
  obtain ⟨hkeys, hem, _, _, _, _, _, hsub, _, _, _, _, _, htc, htax, _, _⟩ :=
    record_schema_spec emptyDoc
  exact ⟨hkeys, (hem (by rfl)).1, htc (by rfl), hsub (by rfl), (htax (by rfl)).1⟩

theorem assemble_header (datos : List (List (String × Value))) :
    (assemble datos).header =
      (column_order.filter (fun c => decide (c ∈ dfColumns datos))).map renameCol := rfl

/-- C10: every extracted record carries a receiver-name field and a
currency field populated from the document, yet no output of the pipeline
has a receiver-name or currency column: neither `NOMBRE_RECEPTOR` nor
`Moneda` is in the canonical projection, and the rename map produces
neither name. -/
theorem no_receiver_currency_column (carpeta : String) (entries : List FSNode)
    (out : Output) (h : procesar_xml_a_excel carpeta (some entries) = .ok out) :
    "NOMBRE_RECEPTOR" ∉ out.header ∧ "Moneda" ∉ out.header ∧
    ∀ e : Element,
      getField (extract e) "NOMBRE_RECEPTOR" =
        some (.s (get_attrib (findDesc e (mkTag (cfdiUri e) "Receptor")) "Nombre")) ∧
      getField (extract e) "Moneda" = some (.s (attrOrEmpty e "Moneda")) := by
  have hout : out =
      assemble (processLoop
        (List.insertionSort (fun a b => pathLe a.1 b.1) (walkXml carpeta entries))) :=
    (Except.ok.inj h).symm
  have hmem : ∀ c ∈ column_order,
      renameCol c ≠ "NOMBRE_RECEPTOR" ∧ renameCol c ≠ "Moneda" := by decide
  subst hout
  rw [assemble_header]
  refine ⟨?_, ?_, fun e => ⟨rfl, rfl⟩⟩
  · intro hin
    obtain ⟨c, hc, hrc⟩ := List.mem_map.mp hin
    exact (hmem c (List.mem_of_mem_filter hc)).1 hrc
  · intro hin
    obtain ⟨c, hc, hrc⟩ := List.mem_map.mp hin
    exact (hmem c (List.mem_of_mem_filter hc)).2 hrc

/-- Witness for `no_receiver_currency_column`, applying it to a concrete
run of the pipeline. -/
theorem no_receiver_currency_column_witness :
    procesar_xml_a_excel "xml" (some []) = .ok ⟨[], [], 0⟩ ∧
    "NOMBRE_RECEPTOR" ∉ (Output.mk [] [] 0).header ∧
    "Moneda" ∉ (Output.mk [] [] 0).header := by
  have hp : procesar_xml_a_excel "xml" (some []) = .ok ⟨[], [], 0⟩ := by rfl
  obtain ⟨h1, h2, _⟩ := no_receiver_currency_column "xml" [] ⟨[], [], 0⟩ hp
  exact ⟨hp, h1, h2⟩

theorem processLoop_eq_filterMap (files : List (String × ParseOutcome)) :
    processLoop files = files.filterMap (fun p =>
      match p.2 with
      | .wellFormed root => some (extract root)
      | .malformed => none
      | .extractFails => none) := by
  induction files with
  | nil => rfl
  | cons p rest ih =>
    obtain ⟨path, outcome⟩ := p
    cases outcome <;> simp [processLoop, List.filterMap_cons, ih]

/-- C1: the pipeline raises an error exactly when the root is missing or
not a directory; a per-document parse failure or extraction exception only
drops that document, and the surviving records are exactly the successful
extractions in file-discovery (sorted-path) order — no per-document failure
reaches the caller or perturbs the rest of the batch. -/
theorem pipeline_spec (carpeta : String) (fsroot : Option (List FSNode)) :
    ((∃ msg, procesar_xml_a_excel carpeta fsroot = .error msg) ↔ fsroot = none) ∧
    (∀ entries, fsroot = some entries →
      procesar_xml_a_excel carpeta fsroot =
        .ok (assemble ((List.insertionSort (fun a b => pathLe a.1 b.1)
            (walkXml carpeta entries)).filterMap (fun p =>
          match p.2 with
          | .wellFormed root => some (extract root)
          | .malformed => none
          | .extractFails => none)))) := by
  constructor
  · constructor
    · rintro ⟨msg, hmsg⟩
      cases fsroot with
      | none => rfl
      | some entries => simp [procesar_xml_a_excel] at hmsg
    · rintro rfl
      exact ⟨"La carpeta no existe: " ++ carpeta, rfl⟩
  · rintro entries rfl
    exact congrArg (fun d => Except.ok (assemble d)) (processLoop_eq_filterMap _)

/-- Witness for `pipeline_spec`, applying it at a missing directory and at
`sampleTree` (one good document, one malformed XML in a subdirectory, one
non-XML file, one failing extraction): only the good document survives. -/
theorem pipeline_spec_witness :
    (∃ msg, procesar_xml_a_excel "root" none = .error msg) ∧
    procesar_xml_a_excel "root" (some sampleTree) = .ok (assemble [extract taxSampleDoc]) := by
  constructor
  · exact (pipeline_spec "root" none).1.mpr rfl
  · rw [(pipeline_spec "root" (some sampleTree)).2 sampleTree rfl]
    rfl

/-- C8 counterexample: an existing directory holding zero `.xml` files
produces an artifact whose header is the EMPTY list — not the renamed
canonical column list — because canonical columns absent from the (empty)
dataset are omitted. -/
theorem empty_corpus_counterexample :
    procesar_xml_a_excel "xml" (some [.file "readme.txt" .malformed]) =
      .ok ⟨[], [], 0⟩ ∧
    (Output.mk [] [] 0).header ≠ column_order.map renameCol := by
  constructor
  · rfl
  · decide

/-- C8 amended: for every existing root directory containing zero `.xml`
files, the pipeline does not raise, reports a processed-record count of
zero, and produces an artifact with no data rows and an EMPTY header (the
canonical columns, all absent from the empty dataset, are omitted rather
than padded). -/
theorem empty_corpus_amended (carpeta : String) (entries : List FSNode)
    (h : listar_xmls_recursivo carpeta entries = []) :
    procesar_xml_a_excel carpeta (some entries) = .ok ⟨[], [], 0⟩ := by
  have hw : walkXml carpeta entries = [] := by
    have hp := List.perm_insertionSort pathLe
      ((walkXml carpeta entries).map Prod.fst)
    rw [show List.insertionSort pathLe
        ((walkXml carpeta entries).map Prod.fst) =
        listar_xmls_recursivo carpeta entries from rfl, h] at hp
    have hmap : (walkXml carpeta entries).map Prod.fst = [] := hp.symm.eq_nil
    exact List.map_eq_nil_iff.mp hmap
  show Except.ok (assemble (processLoop (List.insertionSort (fun a b => pathLe a.1 b.1)
      (walkXml carpeta entries)))) = Except.ok (Output.mk [] [] 0)
  rw [hw]
  rfl

/-- Witness for `empty_corpus_amended`, applying it to a directory whose
only file is not an `.xml`. -/
theorem empty_corpus_amended_witness :
    procesar_xml_a_excel "xml" (some [.file "readme.txt" .malformed]) =
      .ok ⟨[], [], 0⟩ ∧
    (Output.mk [] [] 0).rows = [] ∧ (Output.mk [] [] 0).count = 0 :=
  ⟨empty_corpus_amended "xml" [.file "readme.txt" .malformed] (by rfl), rfl, rfl⟩

theorem charListLe_iff_not_lt : ∀ x y : List Char, charListLe x y = true ↔ ¬ List.lt y x := by
  intro x
  induction x with
  | nil =>
    intro y
    constructor
    · intro _ hlt
      cases hlt
    · intro _
      rfl
  | cons a as ih =>
    intro y
    cases y with
    | nil =>
      constructor
      · intro h
        exact absurd h (by simp [charListLe])
      · intro hn
        exact absurd (List.lt.nil a as) hn
    | cons b bs =>
      show (if a < b then true else if b < a then false else charListLe as bs) = true ↔ _
      by_cases hab : a < b
      · rw [if_pos hab]
        constructor
        · intro _ hlt
          cases hlt with
          | head _ _ h => exact absurd h (lt_asymm hab)
          | tail h1 h2 h3 => exact absurd hab h2
        · intro _
          rfl
      · by_cases hba : b < a
        · rw [if_neg hab, if_pos hba]
          constructor
          · intro h
            cases h
          · intro hn
            exact absurd (List.lt.head bs as hba) hn
        · rw [if_neg hab, if_neg hba, ih bs]
          constructor
          · intro hn hlt
            cases hlt with
            | head _ _ h => exact absurd h hba
            | tail h1 h2 h3 => exact hn h3
          · intro hn hlt
            exact hn (List.lt.tail hba hab hlt)

/-- `pathLe` is exactly the library order on strings (both are code-point
lexicographic). -/
theorem pathLe_iff (a b : String) : pathLe a b ↔ a ≤ b := by
  unfold pathLe
  rw [charListLe_iff_not_lt, ← not_lt]
  apply not_congr
  rw [String.lt_iff_toList_lt, List.lt_iff_lex_lt]
  exact Iff.rfl

instance : IsTrans String pathLe :=
  ⟨fun a b c hab hbc => (pathLe_iff a c).mpr
    (le_trans ((pathLe_iff a b).mp hab) ((pathLe_iff b c).mp hbc))⟩

instance : IsTotal String pathLe :=
  ⟨fun a b => by
    rcases le_total a b with h | h
    · exact Or.inl ((pathLe_iff a b).mpr h)
    · exact Or.inr ((pathLe_iff b a).mpr h)⟩

instance : IsAntisymm String pathLe :=
  ⟨fun a b hab hba => le_antisymm ((pathLe_iff a b).mp hab) ((pathLe_iff b a).mp hba)⟩

theorem walkXml_nil (base : String) : walkXml base [] = [] := rfl

theorem walkXml_cons_file (base f : String) (c : ParseOutcome) (rest : List FSNode) :
    walkXml base (.file f c :: rest) =
      (if isXmlName f then [(pyJoin base f, c)] else []) ++ walkXml base rest := by
  unfold walkXml xmlFilesOf
  rw [List.filterMap_cons]
  by_cases hx : isXmlName f <;>
    simp [hx, walkSubdirs, walkNodeSubdirs]

theorem walkXml_cons_dir (base d : String) (sub rest : List FSNode) :
    walkXml base (.dir d sub :: rest) =
      xmlFilesOf base rest ++ (walkXml (pyJoin base d) sub ++ walkSubdirs base rest) := by
  unfold walkXml
  rw [show xmlFilesOf base (FSNode.dir d sub :: rest) = xmlFilesOf base rest by
    unfold xmlFilesOf; rw [List.filterMap_cons]]
  rw [show walkSubdirs base (FSNode.dir d sub :: rest) =
      (xmlFilesOf (pyJoin base d) sub ++ walkSubdirs (pyJoin base d) sub)
        ++ walkSubdirs base rest from rfl]

theorem walk_perm (base : String) (entries : List FSNode) :
    ((walkXml base entries).map Prod.fst).Perm (specXmlPaths base entries) := by
  suffices h : ∀ (N : Nat) (base : String) (entries : List FSNode), sizeOf entries ≤ N →
      ((walkXml base entries).map Prod.fst).Perm (specXmlPaths base entries) from
    h (sizeOf entries) base entries le_rfl
  intro N
  induction N with
  | zero =>
    intro base entries h
    exfalso
    have : 0 < sizeOf entries := by cases entries <;> simp_arith
    omega
  | succ N ih =>
    intro base entries hle
    cases entries with
    | nil =>
      rw [walkXml_nil]
      exact List.Perm.refl _
    | cons n rest =>
      have hn1 : 1 ≤ sizeOf n := by cases n <;> simp_arith
      have hrest : sizeOf rest ≤ N := by
        simp only [List.cons.sizeOf_spec] at hle
        omega
      cases n with
      | file f c =>
        rw [walkXml_cons_file, List.map_append]
        rw [show specXmlPaths base (FSNode.file f c :: rest) =
            specNodeXml base (FSNode.file f c) ++ specXmlPaths base rest from rfl]
        apply List.Perm.append
        · by_cases hx : isXmlName f <;> simp [hx, specNodeXml]
        · exact ih base rest hrest
      | dir d sub =>
        have hsub : sizeOf sub ≤ N := by
          simp only [List.cons.sizeOf_spec, FSNode.dir.sizeOf_spec] at hle
          omega
        rw [walkXml_cons_dir, List.map_append, List.map_append]
        rw [show specXmlPaths base (FSNode.dir d sub :: rest) =
            specXmlPaths (pyJoin base d) sub ++ specXmlPaths base rest from rfl]
        have hswap : ∀ A B C : List String, (A ++ (B ++ C)).Perm (B ++ (A ++ C)) := by
          intro A B C
          rw [← List.append_assoc, ← List.append_assoc]
          exact (List.perm_append_comm).append_right C
        refine (hswap _ _ _).trans ?_
        rw [← List.map_append]
        exact List.Perm.append (ih (pyJoin base d) sub hsub)
          (by rw [show xmlFilesOf base rest ++ walkSubdirs base rest = walkXml base rest from rfl]
              exact ih base rest hrest)

/-- C5: discovery returns exactly the paths of the regular files anywhere
under the root whose names end in `.xml` case-insensitively (the
specification-side enumeration `specXmlPaths`), in lexicographically sorted
order, and the same directory contents always yield the same ordered
sequence. -/
theorem listar_spec (carpeta : String) (entries : List FSNode) :
    List.Sorted (· ≤ ·) (listar_xmls_recursivo carpeta entries) ∧
    (listar_xmls_recursivo carpeta entries).Perm (specXmlPaths carpeta entries) ∧
    (∀ p, p ∈ listar_xmls_recursivo carpeta entries ↔ p ∈ specXmlPaths carpeta entries) ∧
    (∀ entries2, (specXmlPaths carpeta entries2).Perm (specXmlPaths carpeta entries) →
      listar_xmls_recursivo carpeta entries2 = listar_xmls_recursivo carpeta entries) := by
  have hsorted : ∀ ents : List FSNode,
      List.Sorted pathLe (listar_xmls_recursivo carpeta ents) := fun ents =>
    List.sorted_insertionSort pathLe _
  have hperm : ∀ ents : List FSNode,
      (listar_xmls_recursivo carpeta ents).Perm (specXmlPaths carpeta ents) := fun ents =>
    (List.perm_insertionSort pathLe _).trans (walk_perm carpeta ents)
  refine ⟨?_, hperm entries, fun p => (hperm entries).mem_iff, ?_⟩
  · exact (hsorted entries).imp (fun hab => (pathLe_iff _ _).mp hab)
  · intro e2 hp
    exact List.eq_of_perm_of_sorted ((hperm e2).trans (hp.trans (hperm entries).symm))
      (hsorted e2) (hsorted entries)

/-- Witness for `listar_spec`: `sampleTree` and its reordering
`sampleTree2` yield the same sorted path list. -/
theorem listar_spec_witness :
    listar_xmls_recursivo "root" sampleTree =
      ["root/b.xml", "root/d.xml", "root/sub/a.xml"] ∧
    ("root/sub/a.xml" ∈ listar_xmls_recursivo "root" sampleTree) ∧
    listar_xmls_recursivo "root" sampleTree2 = listar_xmls_recursivo "root" sampleTree := by
  refine ⟨by rfl, ?_, ?_⟩
  · exact ((listar_spec "root" sampleTree).2.2.1 "root/sub/a.xml").mpr (by decide)
  · exact (listar_spec "root" sampleTree).2.2.2 sampleTree2 (by decide)

end Leecfdi
